import Mathlib

/-
  Verification of the event-collection, aggregation and live-propagation
  pipeline of the FHE-analytics repository.

  The TypeScript/JavaScript sources are shallowly embedded:
  - JSON documents (the "cipher blobs" of src/server/fhe.ts) become the
    inductive type `Json`; an unparseable byte string is `none : Blob`.
  - JavaScript numbers are modelled exactly by rationals together with the
    three non-finite values (`JsNum`); machine floating point is replaced by
    exact rational arithmetic, which agrees with the source on every input
    exercised here.
  - Stateful route handlers become pure functions from an explicit server
    state to a result record (status, stored rows, broadcast messages).
-/

namespace ZamaFHEVM

/-- Model of a parsed JSON value, as produced by JSON.parse.  Numbers are
integers (every number this pipeline writes into a document is one); object
field lists stand for the parsed object, so keys are unique by construction
and field lookup takes the first match. -/
inductive Json where
  | jnum  (n : ℤ)
  | jstr  (s : String)
  | jbool (b : Bool)
  | jnull
  | jarr  (xs : List Json)
  | jobj  (fields : List (String × Json))

/-- A cipher blob (Node `Buffer`): `some j` is a byte string that JSON.parse
turns into `j`; `none` is a byte string JSON.parse rejects. -/
def Blob : Type := Option Json

/-- JavaScript property access `data.k` on a parsed JSON value: `none` stands
for `undefined` (property access on a non-object; access on `null` throws,
which every caller of this model catches and maps to the same default). -/
def jsGet : Json → String → Option Json
  | Json.jobj fields, k => fields.lookup k
  | _, _ => none

/-- JavaScript truthiness of a parsed JSON value (NaN cannot occur in parsed
JSON, so the falsy values are 0, the empty string, false and null). -/
def truthy : Json → Bool
  | Json.jnum n => n != 0
  | Json.jstr s => s != ""
  | Json.jbool b => b
  | Json.jnull => false
  | Json.jarr _ => true
  | Json.jobj _ => true

mutual

/-- JavaScript String() conversion of a parsed JSON value (used by the `+`
operator when one operand is not numeric).  Array elements convert
element-wise with `null` rendered empty, as in Array.prototype.join. -/
def jsToString : Json → String
  | Json.jnum n => toString n
  | Json.jstr s => s
  | Json.jbool b => if b then "true" else "false"
  | Json.jnull => "null"
  | Json.jarr xs => jsArrToString xs
  | Json.jobj _ => "[object Object]"

/-- Comma-joined rendering of array elements, `null` elements rendered empty. -/
def jsArrToString : List Json → String
  | [] => ""
  | [Json.jnull] => ""
  | [x] => jsToString x
  | Json.jnull :: xs => "," ++ jsArrToString xs
  | x :: xs => jsToString x ++ "," ++ jsArrToString xs

end

/-- ToPrimitive for the `+` operator: arrays and objects turn into their
string rendering, primitives are unchanged. -/
def jsPrim (j : Json) : Json :=
  match j with
  | Json.jarr xs => Json.jstr (jsArrToString xs)
  | Json.jobj _ => Json.jstr "[object Object]"
  | p => p

/-- ToNumber of a primitive (number, boolean or null operand of `+`). -/
def jsNumOfPrim : Json → ℤ
  | Json.jnum n => n
  | Json.jbool b => if b then 1 else 0
  | _ => 0

/-- JavaScript binary `+` on parsed JSON values: string concatenation when
either primitive operand is a string, numeric addition otherwise. -/
def jsAdd (a b : Json) : Json :=
  match jsPrim a, jsPrim b with
  | Json.jstr sa, pb => Json.jstr (sa ++ jsToString pb)
  | pa, Json.jstr sb => Json.jstr (jsToString pa ++ sb)
  | pa, pb => Json.jnum (jsNumOfPrim pa + jsNumOfPrim pb)

/-- Source `encryptValue` (src/server/fhe.ts:51-55): serializes
`{ value, encrypted: true, timestamp: Date.now() }`; the wall-clock reading
is passed in as `ts`. -/
def encryptValue (value : ℤ) (ts : ℤ) : Blob :=
  some (Json.jobj
    [("value", Json.jnum value), ("encrypted", Json.jbool true),
     ("timestamp", Json.jnum ts)])

/-- Source `decryptValue` (src/server/fhe.ts:61-69): parse the blob and
return `data.value || 0`; a parse failure (or a throwing property access) is
caught and yields 0. -/
def decryptValue (cipherBlob : Blob) : Json :=
  match cipherBlob with
  | none => Json.jnum 0
  | some data =>
    match jsGet data "value" with
    | none => Json.jnum 0
    | some v => if truthy v then v else Json.jnum 0

/-- Source `homomorphicSum` (src/server/fhe.ts:88-96): reduce the blobs with
`acc + decryptValue(cipher)` starting from 0, then serialize
`{ value: total, encrypted: true, timestamp: Date.now() }`. -/
def homomorphicSum (ciphers : List Blob) (ts : ℤ) : Blob :=
  let total := ciphers.foldl (fun acc cipher => jsAdd acc (decryptValue cipher)) (Json.jnum 0)
  some (Json.jobj
    [("value", total), ("encrypted", Json.jbool true), ("timestamp", Json.jnum ts)])

/-- A JavaScript number: a finite (exact rational) value or one of the three
non-finite IEEE values. -/
inductive JsNum where
  | fin (q : ℚ)
  | nan
  | inf
  | negInf
  deriving DecidableEq

/-- ToNumber of a string (Number(s)): whitespace-only is 0, an integer
literal is its value, anything else is NaN (non-integer numeric literals do
not occur in this pipeline and are mapped to NaN). -/
def strToNum (s : String) : JsNum :=
  if s.trim = "" then JsNum.fin 0
  else
    match s.trim.toInt? with
    | some n => JsNum.fin n
    | none => JsNum.nan

/-- JavaScript ToNumber of a parsed JSON value. -/
def jsonToNum : Json → JsNum
  | Json.jnum n => JsNum.fin (n : ℚ)
  | Json.jbool b => JsNum.fin (if b then 1 else 0)
  | Json.jnull => JsNum.fin 0
  | Json.jstr s => strToNum s
  | Json.jarr xs => strToNum (jsArrToString xs)
  | Json.jobj _ => JsNum.nan

/-- Multiplication of JavaScript numbers. -/
def jsMul (x y : JsNum) : JsNum :=
  match x, y with
  | JsNum.fin a, JsNum.fin b => JsNum.fin (a * b)
  | JsNum.nan, _ => JsNum.nan
  | _, JsNum.nan => JsNum.nan
  | JsNum.inf, JsNum.inf => JsNum.inf
  | JsNum.inf, JsNum.negInf => JsNum.negInf
  | JsNum.negInf, JsNum.inf => JsNum.negInf
  | JsNum.negInf, JsNum.negInf => JsNum.inf
  | JsNum.inf, JsNum.fin b => if 0 < b then JsNum.inf else if b < 0 then JsNum.negInf else JsNum.nan
  | JsNum.fin a, JsNum.inf => if 0 < a then JsNum.inf else if a < 0 then JsNum.negInf else JsNum.nan
  | JsNum.negInf, JsNum.fin b => if 0 < b then JsNum.negInf else if b < 0 then JsNum.inf else JsNum.nan
  | JsNum.fin a, JsNum.negInf => if 0 < a then JsNum.negInf else if a < 0 then JsNum.inf else JsNum.nan

/-- Subtraction of JavaScript numbers. -/
def jsSub (x y : JsNum) : JsNum :=
  match x, y with
  | JsNum.fin a, JsNum.fin b => JsNum.fin (a - b)
  | JsNum.nan, _ => JsNum.nan
  | _, JsNum.nan => JsNum.nan
  | JsNum.inf, JsNum.inf => JsNum.nan
  | JsNum.inf, JsNum.negInf => JsNum.inf
  | JsNum.negInf, JsNum.inf => JsNum.negInf
  | JsNum.negInf, JsNum.negInf => JsNum.nan
  | JsNum.inf, JsNum.fin _ => JsNum.inf
  | JsNum.negInf, JsNum.fin _ => JsNum.negInf
  | JsNum.fin _, JsNum.inf => JsNum.negInf
  | JsNum.fin _, JsNum.negInf => JsNum.inf

/-- Division of JavaScript numbers; 0/0 is NaN, x/0 with x nonzero is a
signed infinity (negative zero is not representable in this model). -/
def jsDiv (x y : JsNum) : JsNum :=
  match x, y with
  | JsNum.fin a, JsNum.fin b =>
    if b = 0 then
      (if a = 0 then JsNum.nan else if 0 < a then JsNum.inf else JsNum.negInf)
    else JsNum.fin (a / b)
  | JsNum.nan, _ => JsNum.nan
  | _, JsNum.nan => JsNum.nan
  | JsNum.inf, JsNum.fin b => if 0 ≤ b then JsNum.inf else JsNum.negInf
  | JsNum.negInf, JsNum.fin b => if 0 ≤ b then JsNum.negInf else JsNum.inf
  | JsNum.fin _, JsNum.inf => JsNum.fin 0
  | JsNum.fin _, JsNum.negInf => JsNum.fin 0
  | _, _ => JsNum.nan

/-- Math.floor on a JavaScript number: non-finite inputs pass through. -/
def jsFloor : JsNum → JsNum
  | JsNum.fin q => JsNum.fin (⌊q⌋ : ℤ)
  | x => x

/-- The JavaScript `<` comparison after numeric conversion; any comparison
involving NaN is false. -/
def jsLtNum (x y : JsNum) : Bool :=
  match x, y with
  | JsNum.fin a, JsNum.fin b => a < b
  | JsNum.nan, _ => false
  | _, JsNum.nan => false
  | JsNum.inf, _ => false
  | JsNum.negInf, JsNum.negInf => false
  | JsNum.negInf, _ => true
  | JsNum.fin _, JsNum.inf => true
  | JsNum.fin _, JsNum.negInf => false

/-- Event types accepted by the collect endpoint (zod enum in
src/server/routes.ts:271). -/
inductive EventType where
  | pageview
  | session
  | conversion
  | event
  deriving DecidableEq

/-- A row of the encrypted_events table as used by the pipeline
(src/server/storage.ts, @shared/schema). -/
structure StoredEvent where
  originId : String
  timestamp : ℤ
  page : String
  eventType : EventType
  cipherBlob : Blob
  metadata : Option Json

/-- A row of the origins table (fields used by the pipeline). -/
structure Origin where
  id : String
  domain : String
  ownerAddress : String
  token : String

/-- A row of the fhe_keys table (fields used by the pipeline). -/
structure FheKey where
  originId : String
  publicKey : String
  isActive : Bool

/-- Database state visible to the collect/metrics handlers. -/
structure ServerState where
  origins : List Origin
  fheKeys : List FheKey
  events : List StoredEvent

/-- The ORDER BY of `getEventsByOrigin`: an event sorts before another when
its timestamp is at least as large (newest first). -/
def newerFirst (a b : StoredEvent) : Prop := b.timestamp ≤ a.timestamp

instance : DecidableRel newerFirst := fun a b => Int.decLe b.timestamp a.timestamp

instance : IsTotal StoredEvent newerFirst :=
  ⟨fun a b => le_total b.timestamp a.timestamp⟩

instance : IsTrans StoredEvent newerFirst :=
  ⟨fun _ _ _ h1 h2 => le_trans h2 h1⟩

/-- Source `DatabaseStorage.getEventsByOrigin` (src/server/storage.ts:86-93):
select the origin's events, order by timestamp descending, limit. -/
def storageGetEventsByOrigin (store : List StoredEvent) (originId : String)
    (limit : Nat) : List StoredEvent :=
  (((store.filter (fun e => e.originId == originId)).insertionSort newerFirst).take limit)

/-- The call `storage.getEventsByOrigin(originId)` with the limit argument
omitted: the source declares `limit: number = 100`. -/
def storageGetEventsByOriginDefault (store : List StoredEvent)
    (originId : String) : List StoredEvent :=
  storageGetEventsByOrigin store originId 100

/-- Source `storage.getOriginByToken` (src/server/storage.ts:64-67) over the
modelled state: first origin whose token column equals the argument. -/
def getOriginByToken (st : ServerState) (token : String) : Option Origin :=
  st.origins.find? (fun o => o.token == token)

/-- Source `storage.getActiveKey` (src/server/storage.ts:169-183): an active
key of the origin, if any. -/
def getActiveKey (st : ServerState) (originId : String) : Option FheKey :=
  st.fheKeys.find? (fun k => k.originId == originId && k.isActive)

/-- The fallback blob `Buffer.from(JSON.stringify({ value: 0, encrypted:
true }))` used when a partition is empty (src/server/routes.ts:411 etc.). -/
def zeroCipher : Blob :=
  some (Json.jobj [("value", Json.jnum 0), ("encrypted", Json.jbool true)])

/-- The metrics object assembled by GET /api/metrics/:originId
(src/server/routes.ts:467-476). -/
structure Metrics where
  visitors : JsNum
  pageviews : Json
  sessions : Json
  avgSession : JsNum
  bounceRate : JsNum
  conversions : Json

/-- The aggregation section of the GET /api/metrics/:originId handler
(src/server/routes.ts:404-429) applied to the fetched event window:
partition by event type, homomorphically sum each partition (or use the
zero blob when the partition is empty), decrypt only the aggregates, and
derive visitors, avgSession and bounceRate. -/
def computeMetrics (events : List StoredEvent) (ts : ℤ) : Metrics :=
  let pageviewEvents := events.filter (fun e => decide (e.eventType = EventType.pageview))
  let sessionEvents := events.filter (fun e => decide (e.eventType = EventType.session))
  let conversionEvents := events.filter (fun e => decide (e.eventType = EventType.conversion))
  let pageviewsCipher :=
    if 0 < pageviewEvents.length then homomorphicSum (pageviewEvents.map (fun e => e.cipherBlob)) ts
    else zeroCipher
  let sessionsCipher :=
    if 0 < sessionEvents.length then homomorphicSum (sessionEvents.map (fun e => e.cipherBlob)) ts
    else zeroCipher
  let conversionsCipher :=
    if 0 < conversionEvents.length then homomorphicSum (conversionEvents.map (fun e => e.cipherBlob)) ts
    else zeroCipher
  let pageviews := decryptValue pageviewsCipher
  let sessions := decryptValue sessionsCipher
  let conversions := decryptValue conversionsCipher
  let visitors := jsFloor (jsMul (jsonToNum sessions) (JsNum.fin (7 / 10)))
  let avgSession :=
    if jsLtNum (JsNum.fin 0) (jsonToNum sessions) then
      jsFloor (jsDiv (jsonToNum pageviews) (jsonToNum sessions))
    else JsNum.fin 0
  let bounceRate :=
    if jsLtNum (JsNum.fin 0) (jsonToNum sessions) then
      jsFloor (jsMul (jsSub (JsNum.fin 1) (jsDiv avgSession (jsonToNum pageviews))) (JsNum.fin 100))
    else JsNum.fin 0
  ⟨visitors, pageviews, sessions, avgSession, bounceRate, conversions⟩

/-- Rendering of a JavaScript number inside JSON.stringify output: NaN and
the infinities serialize as null.  Every finite number placed in a payload
by this pipeline is produced by Math.floor, hence integral, so taking the
floor of the rational is exact. -/
def jsNumToJson : JsNum → Json
  | JsNum.fin q => Json.jnum ⌊q⌋
  | _ => Json.jnull

/-- The snapshot object built inside setImmediate by POST /api/collect
(src/server/routes.ts:305-342): same aggregation as the metrics endpoint
but without bounceRate, wrapped as { metrics: ..., timestamp: now }. -/
def buildBroadcastPayload (events : List StoredEvent) (ts now : ℤ) : Json :=
  let m := computeMetrics events ts
  Json.jobj
    [("metrics", Json.jobj
      [("visitors", jsNumToJson m.visitors), ("pageviews", m.pageviews),
       ("sessions", m.sessions), ("avgSession", jsNumToJson m.avgSession),
       ("conversions", m.conversions), ("encrypted", Json.jbool true)]),
     ("timestamp", Json.jnum now)]

/-- A schema-valid body of POST /api/collect (src/server/routes.ts:267-274);
the ISO timestamp is modelled already parsed. -/
structure CollectRequest where
  originToken : String
  timestamp : ℤ
  page : String
  eventType : EventType
  value : Option ℤ
  metadata : Option Json

/-- Result of one collect request: HTTP status, the event row created (if
any), the resulting store, and the messages handed to the SSE broadcaster. -/
structure CollectResult where
  status : Nat
  stored : Option StoredEvent
  state : ServerState
  broadcasts : List (String × Json)

/-- The POST /api/collect handler (src/server/routes.ts:265-358) on a
schema-valid body: resolve the token (401 when unknown), resolve the active
key (500 when absent), encode `body.value || 1`, persist the event, then
recompute the recent window (limit 1000) and broadcast the snapshot. -/
def collectHandler (st : ServerState) (req : CollectRequest) (encTs now : ℤ) :
    CollectResult :=
  match getOriginByToken st req.originToken with
  | none => ⟨401, none, st, []⟩
  | some origin =>
    match getActiveKey st origin.id with
    | none => ⟨500, none, st, []⟩
    | some _key =>
      let value : ℤ := match req.value with
        | none => 1
        | some v => if v = 0 then 1 else v
      let cipherBlob := encryptValue value encTs
      let ev : StoredEvent :=
        ⟨origin.id, req.timestamp, req.page, req.eventType, cipherBlob, req.metadata⟩
      let st' : ServerState := ⟨st.origins, st.fheKeys, st.events ++ [ev]⟩
      let window := storageGetEventsByOrigin st'.events origin.id 1000
      ⟨202, some ev, st', [(origin.id, buildBroadcastPayload window encTs now)]⟩

mutual

/-- JSON.stringify on parsed JSON values (string escaping elided: the model
treats strings as escape-free). -/
def jsonStringify : Json → String
  | Json.jnum n => toString n
  | Json.jstr s => "\"" ++ s ++ "\""
  | Json.jbool b => if b then "true" else "false"
  | Json.jnull => "null"
  | Json.jarr xs => "[" ++ stringifyItems xs ++ "]"
  | Json.jobj fs => "\x7b" ++ stringifyFields fs ++ "\x7d"

/-- Comma-separated serialization of array items. -/
def stringifyItems : List Json → String
  | [] => ""
  | [x] => jsonStringify x
  | x :: xs => jsonStringify x ++ "," ++ stringifyItems xs

/-- Comma-separated serialization of object fields. -/
def stringifyFields : List (String × Json) → String
  | [] => ""
  | [(k, v)] => "\"" ++ k ++ "\":" ++ jsonStringify v
  | (k, v) :: fs => "\"" ++ k ++ "\":" ++ jsonStringify v ++ "," ++ stringifyFields fs

end

/-- An open SSE connection: `writeOk` records whether `client.write` on it
succeeds or throws. -/
structure SseClient where
  id : Nat
  writeOk : Bool
  deriving DecidableEq

/-- The forEach loop of `broadcastMetricsUpdate`: try to write the frame to
each client in registration order; a client whose write throws is removed
from the set and the loop continues.  Returns the surviving set and the
list of (client id, frame) deliveries. -/
def broadcastWrites (data : String) : List SseClient → List SseClient × List (Nat × String)
  | [] => ([], [])
  | c :: rest =>
    let tail := broadcastWrites data rest
    if c.writeOk then (c :: tail.1, (c.id, "data: " ++ data ++ "\n\n") :: tail.2)
    else (tail.1, tail.2)

/-- Source `broadcastMetricsUpdate` (src/server/routes.ts:14-27): look up the
origin's client set (no set means nothing to do), serialize the snapshot
once, and write the frame to every client, pruning failed writes. -/
def broadcastMetricsUpdate (clients : Option (List SseClient)) (metrics : Json) :
    List SseClient × List (Nat × String) :=
  match clients with
  | none => ([], [])
  | some cs =>
    let data := jsonStringify metrics
    broadcastWrites data cs

/-- CONFIG.batchSize (src/public/fhe-analytics.js:28). -/
def batchSize : Nat := 5

/-- CONFIG.batchTimeout in milliseconds (src/public/fhe-analytics.js:29). -/
def batchTimeout : Nat := 3000

/-- CONFIG.retryAttempts (src/public/fhe-analytics.js:30). -/
def retryAttempts : Nat := 3

/-- CONFIG.retryDelay in milliseconds (src/public/fhe-analytics.js:31). -/
def retryDelay : Nat := 1000

/-- One queued tracking event.  The batching logic never inspects the
payload, so only the fields it copies around are modelled. -/
structure CEvent where
  eventType : String
  value : ℚ
  deriving DecidableEq

/-- State of the FHEAnalytics instance relevant to batching: the in-memory
queue and the pending flush timer, stored as the absolute time at which it
would fire. -/
structure ClientState where
  eventQueue : List CEvent
  batchTimer : Option Nat
  deriving DecidableEq

/-- Source `flush` (src/public/fhe-analytics.js:142-157): an empty queue
returns immediately; otherwise the queue is drained in one batch and the
pending timer cleared. -/
def flushClient (s : ClientState) : ClientState × Option (List CEvent) :=
  if s.eventQueue.isEmpty then (s, none)
  else (⟨[], none⟩, some s.eventQueue)

/-- The pending flush timer firing: when the stored deadline has passed at
time `t`, the timeout callback runs `flush` (the timer itself is spent). -/
def fireTimerIfDue (s : ClientState) (t : Nat) : ClientState × Option (List CEvent) :=
  match s.batchTimer with
  | some d => if d ≤ t then flushClient ⟨s.eventQueue, none⟩ else (s, none)
  | none => (s, none)

/-- Source `queueEvent` (src/public/fhe-analytics.js:109-140) at time `t`:
append the event, cancel any pending timer, flush immediately when the
queue reaches CONFIG.batchSize, otherwise restart the CONFIG.batchTimeout
timer. -/
def queueEvent (s : ClientState) (e : CEvent) (t : Nat) : ClientState × Option (List CEvent) :=
  let q := s.eventQueue ++ [e]
  if batchSize ≤ q.length then (⟨[], none⟩, some q)
  else (⟨q, some (t + batchTimeout)⟩, none)

/-- One `track` call observed at time `t`: any timer due by `t` has fired
first, then `queueEvent` runs.  Returns the new state and the batches
dispatched (timer-triggered first, then any size-triggered one). -/
def trackAt (s : ClientState) (t : Nat) (e : CEvent) : ClientState × List (List CEvent) :=
  let fired := fireTimerIfDue s t
  let queued := queueEvent fired.1 e t
  (queued.1, fired.2.toList ++ queued.2.toList)

/-- Run a timeline of `track` calls (time-stamped, in order). -/
def runTracks (s : ClientState) : List (Nat × CEvent) → ClientState × List (List CEvent)
  | [] => (s, [])
  | (t, e) :: rest =>
    let step := trackAt s t e
    let tail := runTracks step.1 rest
    (tail.1, step.2 ++ tail.2)

/-- A fresh FHEAnalytics instance: empty queue, no timer. -/
def initialClientState : ClientState := ⟨[], none⟩

/-- Outcome of one `sendEvent` delivery attempt sequence. -/
structure SendOutcome where
  posts : List CEvent
  delays : List Nat
  delivered : Bool
  errorSurfaced : Bool
  deriving DecidableEq

/-- Source `sendEvent` (src/public/fhe-analytics.js:159-186) from a given
attempt number: `ok n` tells whether the n-th POST gets a success response.
On failure the error is caught; while `attempt < CONFIG.retryAttempts` a
retry of the same event is scheduled after `CONFIG.retryDelay * attempt`
milliseconds, otherwise the event is dropped with no error surfaced. -/
def sendEventFrom (e : CEvent) (ok : Nat → Bool) (attempt : Nat) : SendOutcome :=
  if ok attempt then ⟨[e], [], true, false⟩
  else if _h : attempt < retryAttempts then
    let rest := sendEventFrom e ok (attempt + 1)
    ⟨e :: rest.posts, retryDelay * attempt :: rest.delays, rest.delivered, false⟩
  else ⟨[e], [], false, false⟩
termination_by retryAttempts - attempt
decreasing_by omega

/-- `sendEvent(event)` as called from `flush`: attempts start at 1. -/
def sendEvent (e : CEvent) (ok : Nat → Bool) : SendOutcome :=
  sendEventFrom e ok 1

/-! Supporting lemmas. -/

/-- Decoding an encoded value recovers the value: the value field is found
first, and the `|| 0` fallback maps 0 to itself. -/
theorem decryptValue_encryptValue (v ts : ℤ) :
    decryptValue (encryptValue v ts) = Json.jnum v := by
  by_cases h : v = 0 <;>
    simp [decryptValue, encryptValue, jsGet, List.lookup, truthy, h]

/-- Decoding a blob whose first object field is a numeric value field yields
that number. -/
theorem decryptValue_jnum_field (q : ℤ) (rest : List (String × Json)) :
    decryptValue (some (Json.jobj (("value", Json.jnum q) :: rest))) = Json.jnum q := by
  by_cases h : q = 0 <;>
    simp [decryptValue, jsGet, List.lookup, truthy, h]

/-- Folding JavaScript `+` over numeric summands starting from a number is
rational addition. -/
theorem foldl_jsAdd_jnum (vs : List ℤ) (a : ℤ) :
    vs.foldl (fun acc v => jsAdd acc (Json.jnum v)) (Json.jnum a) =
      Json.jnum (a + vs.sum) := by
  induction vs generalizing a with
  | nil => simp
  | cons v vs ih =>
    simp only [List.foldl_cons, List.sum_cons]
    rw [show jsAdd (Json.jnum a) (Json.jnum v) = Json.jnum (a + v) from rfl, ih]
    ring_nf

/-! Claim theorems. -/

/-- C1.  Codec homomorphism: for every non-empty list of numeric values,
decoding the homomorphic sum of their encodings yields their arithmetic
sum (for any capture timestamps). -/
theorem codec_homomorphism (vs : List ℤ) (encTs aggTs : ℤ) (_hne : vs ≠ []) :
    decryptValue (homomorphicSum (vs.map (fun v => encryptValue v encTs)) aggTs) =
      Json.jnum vs.sum := by
  have hfold : (vs.map (fun v => encryptValue v encTs)).foldl
      (fun acc cipher => jsAdd acc (decryptValue cipher)) (Json.jnum 0) =
      Json.jnum vs.sum := by
    rw [List.foldl_map]
    simpa [decryptValue_encryptValue] using foldl_jsAdd_jnum vs 0
  simp only [homomorphicSum, hfold]
  exact decryptValue_jnum_field vs.sum _

/-- C1 witness: three encoded values 1, 2, 3 aggregate and decode to 6. -/
theorem codec_homomorphism_witness :
    decryptValue (homomorphicSum (List.map (fun v => encryptValue v 0) [1, 2, 3]) 0) =
      Json.jnum 6 := by
  have h := codec_homomorphism [1, 2, 3] 0 0 (by simp)
  norm_num at h
  exact h

/-- A blob carries a numeric value field when it parses and its value field
is a JSON number. -/
def numericValueField (b : Blob) : Bool :=
  match b with
  | none => false
  | some d =>
    match jsGet d "value" with
    | some (Json.jnum _) => true
    | _ => false

/-- A blob on which the `|| 0` fallback of `decryptValue` fires: it does not
parse, or its value field is missing or falsy. -/
def valueFalsyOrMissing (b : Blob) : Bool :=
  match b with
  | none => true
  | some d =>
    match jsGet d "value" with
    | none => true
    | some v => !(truthy v)

/-- C9 counterexample: the blob `{"value":"abc"}` lacks a numeric value
field, yet `decryptValue` returns the string "abc", not 0 — the `|| 0`
fallback passes any truthy value through unchanged. -/
theorem decode_malformed_cex :
    numericValueField (some (Json.jobj [("value", Json.jstr "abc")])) = false ∧
    decryptValue (some (Json.jobj [("value", Json.jstr "abc")])) ≠ Json.jnum 0 := by
  refine ⟨rfl, fun h => ?_⟩
  have : Json.jstr "abc" = Json.jnum 0 := h
  exact Json.noConfusion this

/-- C9 amended.  For every blob that does not parse, or whose value field is
missing or falsy, `decryptValue` returns 0 rather than raising an error. -/
theorem decode_malformed (b : Blob) (h : valueFalsyOrMissing b = true) :
    decryptValue b = Json.jnum 0 := by
  cases b with
  | none => rfl
  | some d =>
    simp only [valueFalsyOrMissing] at h
    simp only [decryptValue]
    cases hg : jsGet d "value" with
    | none => rfl
    | some v =>
      rw [hg] at h
      simp only [Bool.not_eq_true'] at h
      simp [h]

/-- C9 witness: the parseable blob with no value field decodes to 0. -/
theorem decode_malformed_witness :
    valueFalsyOrMissing (some (Json.jobj [("encrypted", Json.jbool true)])) = true ∧
    decryptValue (some (Json.jobj [("encrypted", Json.jbool true)])) = Json.jnum 0 :=
  ⟨rfl, decode_malformed (some (Json.jobj [("encrypted", Json.jbool true)])) rfl⟩

/-- C8.  On an origin whose event window is empty, the metrics computation
returns all-zero metrics (and in particular raises no error: it is a total
function). -/
theorem computeMetrics_empty (ts : ℤ) :
    computeMetrics [] ts =
      ⟨JsNum.fin 0, Json.jnum 0, Json.jnum 0, JsNum.fin 0, JsNum.fin 0, Json.jnum 0⟩ := by
  simp [computeMetrics, zeroCipher, decryptValue, jsGet, List.lookup, truthy,
    jsonToNum, jsLtNum, jsMul, jsFloor]

/-- The single stored event used to exhibit the bounceRate division flaw:
one session event of value 1, so sessions = 1 and pageviews = 0. -/
def oneSessionEvent : StoredEvent :=
  ⟨"origin1", 0, "/", EventType.session, encryptValue 1 0, none⟩

/-- C2.  With one session event and no pageview events (sessions = 1,
pageviews = 0) the metrics handler computes avgSession = 0 as the claim
demands, but bounceRate evaluates `(1 - 0/0) * 100` to NaN, not 0: the
source guards the division only by `sessions > 0`. -/
theorem bounceRate_nan_on_zero_pageviews :
    (computeMetrics [oneSessionEvent] 0).avgSession = JsNum.fin 0 ∧
    (computeMetrics [oneSessionEvent] 0).sessions = Json.jnum 1 ∧
    (computeMetrics [oneSessionEvent] 0).pageviews = Json.jnum 0 ∧
    (computeMetrics [oneSessionEvent] 0).bounceRate = JsNum.nan := by
  refine ⟨?_, rfl, rfl, ?_⟩
  · show (if jsLtNum (JsNum.fin 0) (jsonToNum (Json.jnum 1)) then
        jsFloor (jsDiv (jsonToNum (Json.jnum 0)) (jsonToNum (Json.jnum 1)))
      else JsNum.fin 0) = JsNum.fin 0
    norm_num [jsLtNum, jsonToNum, jsDiv, jsFloor]
  · show (if jsLtNum (JsNum.fin 0) (jsonToNum (Json.jnum 1)) then
        jsFloor (jsMul (jsSub (JsNum.fin 1)
          (jsDiv
            (if jsLtNum (JsNum.fin 0) (jsonToNum (Json.jnum 1)) then
              jsFloor (jsDiv (jsonToNum (Json.jnum 0)) (jsonToNum (Json.jnum 1)))
            else JsNum.fin 0)
            (jsonToNum (Json.jnum 0)))) (JsNum.fin 100))
      else JsNum.fin 0) = JsNum.nan
    norm_num [jsLtNum, jsonToNum, jsDiv, jsFloor, jsSub, jsMul]

/-- C3.  A collect request whose originToken matches no stored origin is
rejected with 401, persists nothing and broadcasts nothing. -/
theorem collect_unknown_token (st : ServerState) (req : CollectRequest)
    (encTs now : ℤ) (h : ∀ o ∈ st.origins, o.token ≠ req.originToken) :
    collectHandler st req encTs now = ⟨401, none, st, []⟩ := by
  have hfind : getOriginByToken st req.originToken = none := by
    rw [getOriginByToken, List.find?_eq_none]
    intro o ho
    simpa using h o ho
  simp [collectHandler, hfind]

/-- A registered origin used by the concrete scenarios. -/
def demoOrigin : Origin := ⟨"origin1", "example.com", "0xabc", "fhe_sk_known"⟩

/-- A server state holding one origin with one active key and no events. -/
def demoState : ServerState := ⟨[demoOrigin], [⟨"origin1", "pk", true⟩], []⟩

/-- A schema-valid collect body presenting a token no origin has. -/
def unknownTokenReq : CollectRequest :=
  ⟨"fhe_sk_other", 0, "/", EventType.pageview, none, none⟩

/-- C3 witness: the concrete unknown-token request against the demo state. -/
theorem collect_unknown_token_witness :
    collectHandler demoState unknownTokenReq 0 0 = ⟨401, none, demoState, []⟩ :=
  collect_unknown_token demoState unknownTokenReq 0 0 (by
    intro o ho
    simp only [demoState, List.mem_singleton] at ho
    subst ho
    simp [demoOrigin, unknownTokenReq])

/-- C10.  Whenever the collect handler persists an event, the stored blob
decodes to a nonzero value, and when the request omitted the value field or
sent value 0 the stored blob decodes to 1 (the handler encodes
`body.value || 1`). -/
theorem collect_value_never_zero (st : ServerState) (req : CollectRequest)
    (encTs now : ℤ) (e : StoredEvent)
    (h : (collectHandler st req encTs now).stored = some e) :
    decryptValue e.cipherBlob ≠ Json.jnum 0 ∧
    ((req.value = none ∨ req.value = some 0) →
      decryptValue e.cipherBlob = Json.jnum 1) := by
  unfold collectHandler at h
  split at h
  · simp at h
  · split at h
    · simp at h
    · simp only [Option.some.injEq] at h
      subst h
      cases hv : req.value with
      | none =>
        simp only [hv]
        refine ⟨?_, fun _ => ?_⟩ <;> simp [decryptValue_encryptValue]
      | some v =>
        by_cases hz : v = 0
        · subst hz
          simp only [hv]
          refine ⟨?_, fun _ => ?_⟩ <;> simp [decryptValue_encryptValue]
        · simp only [hv, if_neg hz]
          refine ⟨by simp [decryptValue_encryptValue, hz], fun hc => ?_⟩
          rcases hc with hc | hc
          · exact absurd hc (by simp)
          · exact absurd (Option.some.inj hc) hz

/-- The collect body of the C10 scenario: value field omitted. -/
def collectReqNoValue : CollectRequest :=
  ⟨"fhe_sk_known", 0, "/", EventType.pageview, none, none⟩

/-- The event row the collect handler stores for `collectReqNoValue`. -/
def storedDemoEvent : StoredEvent :=
  ⟨"origin1", 0, "/", EventType.pageview, encryptValue 1 0, none⟩

/-- C10 witness: the omitted-value request against the demo state stores an
event whose blob decodes to 1. -/
theorem collect_value_never_zero_witness :
    decryptValue storedDemoEvent.cipherBlob ≠ Json.jnum 0 ∧
    ((collectReqNoValue.value = none ∨ collectReqNoValue.value = some 0) →
      decryptValue storedDemoEvent.cipherBlob = Json.jnum 1) :=
  collect_value_never_zero demoState collectReqNoValue 0 0 storedDemoEvent rfl

/-- C4.  Broadcasting a snapshot to an origin's registered connections
writes the one serialization of the snapshot to every connection whose
write succeeds, removes exactly the connections whose write fails, and
returns normally (it is a total function, so a failing connection never
prevents delivery to the rest or surfaces an error). -/
theorem broadcastMetricsUpdate_spec (cs : List SseClient) (metrics : Json) :
    (broadcastMetricsUpdate (some cs) metrics).1 = cs.filter (fun c => c.writeOk) ∧
    (broadcastMetricsUpdate (some cs) metrics).2 =
      (cs.filter (fun c => c.writeOk)).map
        (fun c => (c.id, "data: " ++ jsonStringify metrics ++ "\n\n")) := by
  simp only [broadcastMetricsUpdate]
  induction cs with
  | nil => exact ⟨rfl, rfl⟩
  | cons c rest ih =>
    simp only [broadcastWrites, List.filter_cons]
    cases hc : c.writeOk <;> simp [hc, ih.1, ih.2]

/-- C6 (amended).  The recent-window read returns only the origin's events,
newest first, bounded by the limit; omitting the limit argument applies the
source default of 100. -/
theorem getEventsByOrigin_spec (store : List StoredEvent) (originId : String)
    (limit : Nat) :
    (storageGetEventsByOrigin store originId limit).length ≤ limit ∧
    List.Pairwise newerFirst (storageGetEventsByOrigin store originId limit) ∧
    (∀ e ∈ storageGetEventsByOrigin store originId limit, e.originId = originId) ∧
    storageGetEventsByOriginDefault store originId =
      storageGetEventsByOrigin store originId 100 := by
  refine ⟨?_, ?_, ?_, rfl⟩
  · exact List.length_take_le limit
      ((store.filter (fun e => e.originId == originId)).insertionSort newerFirst)
  · have hs : List.Sorted newerFirst
        ((store.filter (fun e => e.originId == originId)).insertionSort newerFirst) :=
      List.sorted_insertionSort newerFirst _
    exact List.Pairwise.sublist (List.take_sublist _ _) hs
  · intro e he
    have h1 : e ∈ (store.filter (fun e => e.originId == originId)).insertionSort newerFirst :=
      List.take_subset _ _ he
    have h2 : e ∈ store.filter (fun e => e.originId == originId) :=
      (List.mem_insertionSort newerFirst).mp h1
    simpa using (List.mem_filter.mp h2).2

/-- C6 witness: a store of three events of one origin (plus a foreign one)
read back with limit 2. -/
theorem getEventsByOrigin_spec_witness :
    (storageGetEventsByOrigin
        [⟨"o", 1, "/a", EventType.pageview, none, none⟩,
         ⟨"p", 9, "/x", EventType.pageview, none, none⟩,
         ⟨"o", 5, "/b", EventType.session, none, none⟩,
         ⟨"o", 3, "/c", EventType.pageview, none, none⟩] "o" 2).length ≤ 2 ∧
    List.Pairwise newerFirst
      (storageGetEventsByOrigin
        [⟨"o", 1, "/a", EventType.pageview, none, none⟩,
         ⟨"p", 9, "/x", EventType.pageview, none, none⟩,
         ⟨"o", 5, "/b", EventType.session, none, none⟩,
         ⟨"o", 3, "/c", EventType.pageview, none, none⟩] "o" 2) ∧
    (∀ e ∈ storageGetEventsByOrigin
        [⟨"o", 1, "/a", EventType.pageview, none, none⟩,
         ⟨"p", 9, "/x", EventType.pageview, none, none⟩,
         ⟨"o", 5, "/b", EventType.session, none, none⟩,
         ⟨"o", 3, "/c", EventType.pageview, none, none⟩] "o" 2, e.originId = "o") ∧
    storageGetEventsByOriginDefault
        [⟨"o", 1, "/a", EventType.pageview, none, none⟩,
         ⟨"p", 9, "/x", EventType.pageview, none, none⟩,
         ⟨"o", 5, "/b", EventType.session, none, none⟩,
         ⟨"o", 3, "/c", EventType.pageview, none, none⟩] "o" =
      storageGetEventsByOrigin
        [⟨"o", 1, "/a", EventType.pageview, none, none⟩,
         ⟨"p", 9, "/x", EventType.pageview, none, none⟩,
         ⟨"o", 5, "/b", EventType.session, none, none⟩,
         ⟨"o", 3, "/c", EventType.pageview, none, none⟩] "o" 100 :=
  getEventsByOrigin_spec _ "o" 2

/-- A store of 101 events of one origin: enough to separate the declared
default limit (100) from the specified one (1000). -/
def store101 : List StoredEvent :=
  (List.range 101).map (fun _ => ⟨"o", 0, "/", EventType.pageview, none, none⟩)

/-- C6 counterexample: with 101 stored events of the origin, the
limit-omitted read returns only 100 of them, while a default bound of 1000
(as the claim states) would return all 101 — the source default is
`limit: number = 100`. -/
theorem getEventsByOrigin_default_cex :
    (storageGetEventsByOriginDefault store101 "o").length = 100 ∧
    (storageGetEventsByOrigin store101 "o" 1000).length = 101 := by
  exact ⟨by decide, by decide⟩

/-- C5.  Five track calls within a 100 ms window, starting from a fresh
client: the batching state machine dispatches exactly one batch holding the
five events in order, ends with an empty queue and no pending timer, and no
later timer fire can dispatch anything further. -/
theorem client_batching (e1 e2 e3 e4 e5 : CEvent) (t1 t2 t3 t4 t5 : Nat)
    (h12 : t1 ≤ t2) (h23 : t2 ≤ t3) (h34 : t3 ≤ t4) (h45 : t4 ≤ t5)
    (hwin : t5 ≤ t1 + 100) :
    runTracks initialClientState [(t1, e1), (t2, e2), (t3, e3), (t4, e4), (t5, e5)] =
      (initialClientState, [[e1, e2, e3, e4, e5]]) ∧
    (∀ t, fireTimerIfDue
        (runTracks initialClientState
          [(t1, e1), (t2, e2), (t3, e3), (t4, e4), (t5, e5)]).1 t =
      ((runTracks initialClientState
          [(t1, e1), (t2, e2), (t3, e3), (t4, e4), (t5, e5)]).1, none)) := by
  have c2 : ¬ (t1 + 3000 ≤ t2) := by omega
  have c3 : ¬ (t2 + 3000 ≤ t3) := by omega
  have c4 : ¬ (t3 + 3000 ≤ t4) := by omega
  have c5 : ¬ (t4 + 3000 ≤ t5) := by omega
  have hrun : runTracks initialClientState
      [(t1, e1), (t2, e2), (t3, e3), (t4, e4), (t5, e5)] =
      (initialClientState, [[e1, e2, e3, e4, e5]]) := by
    simp [runTracks, trackAt, fireTimerIfDue, queueEvent, flushClient,
      initialClientState, batchSize, batchTimeout, c2, c3, c4, c5]
  refine ⟨hrun, fun t => ?_⟩
  rw [hrun]
  rfl


/-- C5 witness: five concrete events tracked at 0, 10, 20, 30 and 40 ms. -/
theorem client_batching_witness :
    runTracks initialClientState
      [(0, ⟨"pageview", 1⟩), (10, ⟨"session", 1⟩), (20, ⟨"event", 1⟩),
       (30, ⟨"conversion", 2⟩), (40, ⟨"pageview", 1⟩)] =
      (initialClientState,
       [[⟨"pageview", 1⟩, ⟨"session", 1⟩, ⟨"event", 1⟩, ⟨"conversion", 2⟩,
         ⟨"pageview", 1⟩]]) :=
  (client_batching ⟨"pageview", 1⟩ ⟨"session", 1⟩ ⟨"event", 1⟩ ⟨"conversion", 2⟩
    ⟨"pageview", 1⟩ 0 10 20 30 40 (by decide) (by decide) (by decide) (by decide)
    (by decide)).1

/-- C7.  When every POST for an event fails, `sendEvent` makes exactly
three attempts with the same event, waiting 1000 ms before the second and
2000 ms before the third (attempt × 1000), then drops the event silently:
it is not delivered and no error is surfaced. -/
theorem sendEvent_retry (e : CEvent) (ok : Nat → Bool) (h : ∀ n, ok n = false) :
    sendEvent e ok = ⟨[e, e, e], [1000, 2000], false, false⟩ := by
  have h1 := h 1
  have h2 := h 2
  have h3 := h 3
  simp [sendEvent, sendEventFrom, h1, h2, h3, retryAttempts, retryDelay]

/-- C7 witness: a concrete event whose every delivery attempt fails. -/
theorem sendEvent_retry_witness :
    sendEvent ⟨"pageview", 1⟩ (fun _ => false) =
      ⟨[⟨"pageview", 1⟩, ⟨"pageview", 1⟩, ⟨"pageview", 1⟩], [1000, 2000],
       false, false⟩ :=
  sendEvent_retry ⟨"pageview", 1⟩ (fun _ => false) (fun _ => rfl)

end ZamaFHEVM
